import Mathlib

/-!
# ptpproxy: a shallow embedding of `ptpproxy.c`

The program relays IEEE 1588v2 frames between two raw packet sockets.
Every function of `src/ptpproxy.c` is embedded as a total Lean function.

* Bytes are natural numbers; no arithmetic is ever done on them, they are
  only copied.
* A frame buffer (`union ethframe`) is the list of its `raw` bytes.
* The operating system is a script of outcomes: each system call consumes
  the next outcome scripted for it.  A blocking call whose script is
  exhausted never returns (`Status.blocked`).
* Every system call and every library output call is recorded, in program
  order, in a trace of `Event`s.
* The build-time switch `CHEAT` is the boolean parameter `cheat`.
* `main` runs the two relay directions concurrently and `forward` works on
  the global `out_packet` in both, so that buffer is shared memory.  A call
  of `forward` is therefore run against a script of the writes the other
  direction makes to `out_packet` between its own receives and sends.
-/

namespace PtpProxy

/-! ## Constants of the C headers -/

/-- Octets in one Ethernet address (`linux/if_ether.h`). -/
abbrev ETH_ALEN : Nat := 6

/-- Byte size of `struct ethhdr`. -/
abbrev ETH_HLEN : Nat := 14

/-- Maximum octets in a frame without FCS; also `sizeof(union ethframe)`. -/
abbrev ETH_FRAME_LEN : Nat := 1514

/-- Value of `errno` after an interrupted system call. -/
abbrev EINTR : Int := 4

/-- Address family of packet sockets. -/
abbrev PF_PACKET : Nat := 17

/-- EtherType of IEEE 1588 over Ethernet. -/
abbrev ETH_P_1588 : Nat := 0x88F7

/-! ## Data model -/

/-- The six bytes of `unsigned char mac[ETH_ALEN]`. -/
structure Mac where
  b0 : Nat
  b1 : Nat
  b2 : Nat
  b3 : Nat
  b4 : Nat
  b5 : Nat
deriving DecidableEq, Repr

/-- The bytes of a hardware address in memory order. -/
def Mac.bytes (m : Mac) : List Nat := [m.b0, m.b1, m.b2, m.b3, m.b4, m.b5]

/-- The all-zero address, as left by `memset`. -/
def Mac.zero : Mac := ⟨0, 0, 0, 0, 0, 0⟩

/-- The record `Iface` of the source. -/
structure Iface where
  index : Nat
  name : String
  mac : Mac
  sock : Int
deriving DecidableEq, Repr

/-- An `Iface` after `memset(iface, 0, sizeof(*iface))`. -/
def Iface.zero : Iface := ⟨0, "", Mac.zero, 0⟩

/-- The two global frame buffers, named as in the source. -/
inductive BufId where
  | in_packet
  | out_packet
deriving DecidableEq, Repr

/-- The fields of `struct sockaddr_ll` that `send_message` and
`init_iface` fill in; `sll_addr` has eight bytes. -/
structure SockaddrLL where
  sll_family : Nat
  sll_protocol : Nat
  sll_ifindex : Nat
  sll_halen : Nat
  sll_addr : List Nat
deriving DecidableEq, Repr

/-- A `sockaddr_ll` after `memset(&addr, 0, sizeof(addr))`. -/
def SockaddrLL.zero : SockaddrLL := ⟨0, 0, 0, 0, List.replicate 8 0⟩

/-- The significant part of the link-layer address: its first
`sll_halen` bytes. -/
def SockaddrLL.lladdr (a : SockaddrLL) : List Nat := a.sll_addr.take a.sll_halen

/-- Outcome of one system call: a value, or a failure with its `errno`. -/
inductive Sys (α : Type) where
  | ok (v : α)
  | fail (errno : Int)
deriving DecidableEq, Repr

/-- An argument of a `printf` call. -/
inductive Arg where
  | s (v : String)
  | u (v : Nat)
deriving DecidableEq, Repr

/-- One observable action of the program.  A receive or send records its
return value and the value of `errno` after the call. -/
inductive Event where
  | memset_buf (target : BufId) (n : Nat)
  | recvfrom (sock : Int) (target : BufId) (cap : Nat) (ret : Int) (errno : Int)
  | sendto (sock : Int) (source : BufId) (bytes : List Nat) (addr : SockaddrLL)
      (ret : Int) (errno : Int)
  | printf (fmt : String) (args : List Arg)
  | perror (tag : String) (errno : Int)
  | socket (family : Nat) (protocol : Nat) (ret : Int)
  | if_nametoindex (name : String) (ret : Nat)
  | ioctl_hwaddr (sock : Int) (name : String) (ret : Int)
  | bind (sock : Int) (addr : SockaddrLL) (ret : Int)
  | pthread_create (ret : Int)
  | pthread_join
  | close (fd : Int)
deriving DecidableEq, Repr

/-- The process memory that the relay touches: the four globals of the
source and `errno`. -/
structure World where
  inside : Iface
  outside : Iface
  in_packet : List Nat
  out_packet : List Nat
  errno : Int
deriving DecidableEq, Repr

/-- Read a frame buffer through its address. -/
def World.buf (w : World) : BufId → List Nat
  | .in_packet => w.in_packet
  | .out_packet => w.out_packet

/-- Overwrite a frame buffer through its address. -/
def World.setBuf (w : World) (b : BufId) (v : List Nat) : World :=
  match b with
  | .in_packet => { w with in_packet := v }
  | .out_packet => { w with out_packet := v }

/-- The effect of `memcpy(mem + off, src, src.length)` on a byte array. -/
def memcpy (mem : List Nat) (off : Nat) (src : List Nat) : List Nat :=
  mem.take off ++ src ++ mem.drop (off + src.length)

/-- How a call of `forward` ends: it returns, or it stays blocked in a
system call for which nothing further is scripted. -/
inductive Status where
  | returned
  | blocked
deriving DecidableEq, Repr

/-- The result of running a piece of the program: final memory, trace of
events in program order, and how it ended. -/
structure Run where
  world : World
  trace : List Event
  status : Status
deriving DecidableEq, Repr

/-- Put earlier events in front of a run. -/
def Run.after (evs : List Event) (r : Run) : Run :=
  { r with trace := evs ++ r.trace }

/-! ## `send_message` and `recv_message` -/

/-- The address that `send_message` builds: zeroed, then family, interface
index, address length, and the destination address copied from the first
`ETH_ALEN` bytes of the frame. -/
def send_addr (dst : Iface) (frame : List Nat) : SockaddrLL :=
  { SockaddrLL.zero with
    sll_family := PF_PACKET
    sll_ifindex := dst.index
    sll_halen := ETH_ALEN
    sll_addr := memcpy SockaddrLL.zero.sll_addr 0 (frame.take ETH_ALEN) }

/-- The function `send_message(to, buf, len)`.  The scripted outcome `o`
decides what `sendto` returns: `len` on success, `-1` with `errno` set on
failure.  Returns the return value, the memory afterwards and the event. -/
def send_message (cheat : Bool) (dst : Iface) (buf : BufId) (len : Nat)
    (o : Sys Unit) (w : World) : Int × World × Event :=
  let addr := send_addr dst (w.buf buf)
  let w1 := if cheat then w.setBuf buf (memcpy (w.buf buf) ETH_ALEN dst.mac.bytes) else w
  let bytes := (w1.buf buf).take len
  match o with
  | .ok _ => ((len : Int), w1, Event.sendto dst.sock buf bytes addr (len : Int) w1.errno)
  | .fail e => (-1, { w1 with errno := e }, Event.sendto dst.sock buf bytes addr (-1) e)

/-- The function `recv_message(from, buf)`: `recvfrom` into the buffer with
capacity `sizeof(union ethframe)`.  A delivered frame is cut to the
capacity, copied to the start of the buffer, and its length returned. -/
def recv_message (src : Iface) (buf : BufId) (o : Sys (List Nat)) (w : World) :
    Int × World × Event :=
  match o with
  | .ok frame =>
    let got := frame.take ETH_FRAME_LEN
    ((got.length : Int), w.setBuf buf (memcpy (w.buf buf) 0 got),
      Event.recvfrom src.sock buf ETH_FRAME_LEN (got.length : Int) w.errno)
  | .fail e =>
    (-1, { w with errno := e }, Event.recvfrom src.sock buf ETH_FRAME_LEN (-1) e)

/-! ## `forward` -/

/-- The trace line printed after a successful forward. -/
def trace_line (src dst : Iface) : Event :=
  Event.printf "%s -> %s\n" [Arg.s src.name, Arg.s dst.name]

/-- A write to the global `out_packet` made by the other relay direction,
which runs `forward` concurrently on the same buffer: its initial `memset`,
a frame delivered by its `recvfrom`, or the source-address rewrite of its
`send_message` (only in a build with `CHEAT`). -/
inductive EnvOp where
  | clear
  | recv (frame : List Nat)
  | rewrite (mac : Mac)
deriving DecidableEq, Repr

/-- The effect of one write of the other direction on the bytes of
`out_packet`. -/
def EnvOp.apply : EnvOp → List Nat → List Nat
  | .clear, _ => List.replicate ETH_FRAME_LEN 0
  | .recv frame, mem => memcpy mem 0 (frame.take ETH_FRAME_LEN)
  | .rewrite mac, mem => memcpy mem ETH_ALEN mac.bytes

/-- Memory after the other direction made the writes `ops`, in order, to
`out_packet`.  Nothing else is shared: `errno` is per thread, and the
other direction never writes `in_packet` or the interface records. -/
def interfere (ops : List EnvOp) (w : World) : World :=
  w.setBuf BufId.out_packet (ops.foldl (fun mem op => op.apply mem) w.out_packet)

/-- The `while(1)` loop of `forward`.  As in the source, the loop works on
`out_packet` whatever buffer the caller passed.  Each iteration consumes
one scripted receive outcome and, if the receive succeeded, one scripted
send outcome.  Before each receive and before each send the next entry of
`env` is consumed: the writes that the concurrently running other direction
made to `out_packet` since the previous call (none once `env` is used up).
So the bytes left by `recv_message` reach `send_message` unchanged only if
the entry between the two is empty. -/
def forward_loop (cheat : Bool) (src dst : Iface) :
    List (Sys (List Nat)) → List (Sys Unit) → List (List EnvOp) → World → Run
  | [], _, _, w => ⟨w, [], Status.blocked⟩
  | r :: rs, ss, env, w =>
    match recv_message src BufId.out_packet r (interfere (env.headD []) w) with
    | (len, w1, ev1) =>
      if len = -1 then
        if w1.errno = EINTR then
          (forward_loop cheat src dst rs ss env.tail w1).after [ev1]
        else
          ⟨w1, [ev1, Event.perror "recv_message" w1.errno], Status.returned⟩
      else
        match ss with
        | [] => ⟨w1, [ev1], Status.blocked⟩
        | s :: ss1 =>
          match send_message cheat dst BufId.out_packet len.toNat s
              (interfere (env.tail.headD []) w1) with
          | (ret, w2, ev2) =>
            if ret = -1 then
              if w2.errno = EINTR then
                (forward_loop cheat src dst rs ss1 env.tail.tail w2).after [ev1, ev2]
              else
                ⟨w2, [ev1, ev2, Event.perror "send_message" w2.errno], Status.returned⟩
            else
              (forward_loop cheat src dst rs ss1 env.tail.tail w2).after
                [ev1, ev2, trace_line src dst]

/-- The function `forward(from, to, buf)`.  The parameter `buf` is used
only for `sizeof(*buf)`; the buffer cleared and used is `out_packet`. -/
def forward (cheat : Bool) (src dst : Iface) (buf : BufId)
    (recvs : List (Sys (List Nat))) (sends : List (Sys Unit)) (env : List (List EnvOp))
    (w : World) : Run :=
  let _unused := buf
  let w0 := w.setBuf BufId.out_packet (List.replicate ETH_FRAME_LEN 0)
  (forward_loop cheat src dst recvs sends env w0).after
    [Event.memset_buf BufId.out_packet ETH_FRAME_LEN]

/-- What one relay direction meets while it runs: the outcomes of its
receives and of its sends, in call order, and, for each of these calls in
order, the writes the other direction made to `out_packet` just before
it. -/
structure Net where
  recvs : List (Sys (List Nat))
  sends : List (Sys Unit)
  env : List (List EnvOp)
deriving DecidableEq, Repr

/-- The function `proxy_client_to_master`: inside to outside, called with
`out_packet`. -/
def proxy_client_to_master (cheat : Bool) (net : Net) (w : World) : Run :=
  let r := forward cheat w.inside w.outside BufId.out_packet net.recvs net.sends net.env w
  match r.status with
  | .returned =>
    { r with trace := r.trace ++
        [Event.printf "path broken: client --> router --> master\n" []] }
  | .blocked => r

/-- The function `proxy_master_to_client`: outside to inside, called with
`in_packet`. -/
def proxy_master_to_client (cheat : Bool) (net : Net) (w : World) : Run :=
  let r := forward cheat w.outside w.inside BufId.in_packet net.recvs net.sends net.env w
  match r.status with
  | .returned =>
    { r with trace := r.trace ++
        [Event.printf "path broken: master --> router --> client\n" []] }
  | .blocked => r

/-! ## `init_iface` -/

/-- Size of `ifr_name` in `struct ifreq`. -/
abbrev IFNAMSIZ : Nat := 16

/-- Scripted outcomes of the four operating-system steps of one call of
`init_iface`.  The library function `if_nametoindex` reports failure by
returning 0. -/
structure InitOs where
  socket : Sys Nat
  if_nametoindex : Nat
  ioctl : Sys Mac
  bind : Sys Unit
deriving DecidableEq, Repr

/-- The result of `init_iface`: return value, the record behind `iface`,
`errno`, and the events of the call. -/
structure InitRun where
  ret : Int
  iface : Iface
  errno : Int
  trace : List Event
deriving DecidableEq, Repr

/-- The address `init_iface` binds to. -/
def bind_addr (index : Nat) : SockaddrLL :=
  { SockaddrLL.zero with
    sll_family := PF_PACKET
    sll_protocol := ETH_P_1588
    sll_ifindex := index }

/-- The line that reports index and hardware address of an interface. -/
def report_line (i : Iface) : Event :=
  Event.printf "%s: index: %d, MAC: %02X:%02X:%02X:%02X:%02X:%02X\n"
    (Arg.s i.name :: Arg.u i.index :: i.mac.bytes.map Arg.u)

/-- The function `init_iface(iface, name)`. -/
def init_iface (os : InitOs) (name : String) (iface : Iface) (errno : Int) : InitRun :=
  match os.socket with
  | .fail e =>
    ⟨-1, iface, e, [Event.socket PF_PACKET ETH_P_1588 (-1), Event.perror "socket" e]⟩
  | .ok fd =>
    let s : Int := fd
    let ev_socket := Event.socket PF_PACKET ETH_P_1588 s
    let i1 : Iface := { Iface.zero with sock := s, name := name }
    let ev_hello := Event.printf "Initialize %s\n" [Arg.s name]
    let i2 : Iface := { i1 with index := os.if_nametoindex }
    let ev_index := Event.if_nametoindex i1.name os.if_nametoindex
    match os.ioctl with
    | .fail e =>
      ⟨-1, i2, e, [ev_socket, ev_hello, ev_index,
        Event.ioctl_hwaddr s (name.take IFNAMSIZ) (-1), Event.perror "ioctl" e]⟩
    | .ok hw =>
      let i3 : Iface := { i2 with mac := hw }
      let ev_ioctl := Event.ioctl_hwaddr s (name.take IFNAMSIZ) 0
      let addr_bind := bind_addr i3.index
      match os.bind with
      | .fail e =>
        ⟨-1, i3, e, [ev_socket, ev_hello, ev_index, ev_ioctl, report_line i3,
          Event.bind s addr_bind (-1), Event.perror "bind" e]⟩
      | .ok _ =>
        ⟨0, i3, errno, [ev_socket, ev_hello, ev_index, ev_ioctl, report_line i3,
          Event.bind s addr_bind 0]⟩

/-! ## `main` -/

/-- Everything the operating system contributes to one execution of
`main`: the outcomes of the two interface initialisations, the return
value of `pthread_create`, and the traffic of each relay direction. -/
structure MainOs where
  init_inside : InitOs
  init_outside : InitOs
  pthread_create : Int
  c2m : Net
  m2c : Net
deriving DecidableEq, Repr

/-- The result of `main`: the exit code (`none` when `main` never returns),
the events of the main thread and the events of the spawned thread. -/
structure MainRun where
  exit : Option Int
  trace : List Event
  thread : List Event
deriving DecidableEq, Repr

/-- The statement `if(-1 != sock) close(sock)`. -/
def close_if_open (sock : Int) : List Event :=
  if sock ≠ -1 then [Event.close sock] else []

/-- The usage text printed when arguments are missing. -/
def usage_fmt : String :=
  "usage: %s inside_iface outside_iface\n" ++
  "  e.g. %s br0 eth0\n" ++
  "inside_iface  the interface's name between router and client\n" ++
  "outside_iface the interface's name between router and master\n"

/-- The call `init_iface(&inside, argv[1])` of `main`; `inside` was zeroed
and its `sock` set to `-1` just before. -/
def init_inside (os : MainOs) (argv : List String) : InitRun :=
  init_iface os.init_inside (argv.getD 1 "") { Iface.zero with sock := -1 } 0

/-- The call `init_iface(&outside, argv[2])` of `main`, made after the one
for `inside` returned 0. -/
def init_outside (os : MainOs) (argv : List String) : InitRun :=
  init_iface os.init_outside (argv.getD 2 "") { Iface.zero with sock := -1 }
    (init_inside os argv).errno

/-- The function `main(argc, argv)` with `argc = argv.length`.  Argument
strings hold no NUL byte, so `strcmp` yields 0 exactly on equal strings.
The two relay directions run concurrently in the source; here each one is
run on the memory left by initialisation, against the writes of the other
direction scripted in its `Net`, and keeps its own trace.  The embedding
fixes the control flow of `main` and the events of each thread; it does not
derive the writes scripted for one direction from the run of the other. -/
def main (cheat : Bool) (os : MainOs) (argv : List String) : MainRun :=
  if argv.length < 3 then
    ⟨some 1, [Event.printf usage_fmt
      [Arg.s (argv.getD 0 "(null)"), Arg.s (argv.getD 0 "(null)")]], []⟩
  else if argv.getD 1 "" = argv.getD 2 "" then
    ⟨some 1, [Event.printf
      "Error! inside_iface(%s) mustn't be equal to outside_iface(%s)\n"
      [Arg.s (argv.getD 1 ""), Arg.s (argv.getD 2 "")]], []⟩
  else
    let r1 := init_inside os argv
    if r1.ret ≠ 0 then ⟨some 1, r1.trace, []⟩
    else
      let r2 := init_outside os argv
      if r2.ret ≠ 0 then ⟨some 1, r1.trace ++ r2.trace, []⟩
      else
        let w : World :=
          ⟨r1.iface, r2.iface, List.replicate ETH_FRAME_LEN 0,
            List.replicate ETH_FRAME_LEN 0, r2.errno⟩
        let setup := r1.trace ++ r2.trace
        let closes := close_if_open r1.iface.sock ++ close_if_open r2.iface.sock
        if os.pthread_create ≠ 0 then
          ⟨some 0, setup ++ [Event.pthread_create os.pthread_create,
            Event.printf "pthread_create failed\n" []] ++ closes, []⟩
        else
          let t := proxy_client_to_master cheat os.c2m w
          let m := proxy_master_to_client cheat os.m2c w
          let started := setup ++ [Event.pthread_create 0] ++ m.trace
          match m.status, t.status with
          | .blocked, _ => ⟨none, started, t.trace⟩
          | .returned, .blocked => ⟨none, started ++ [Event.pthread_join], t.trace⟩
          | .returned, .returned =>
            ⟨some 0, started ++ [Event.pthread_join] ++ closes, t.trace⟩

/-! ## Classification of events -/

/-- Events that only a running relay direction produces: `forward` clears
its buffer first, then receives and sends. -/
def Event.isRelay : Event → Bool
  | .memset_buf _ _ => true
  | .recvfrom _ _ _ _ _ => true
  | .sendto _ _ _ _ _ _ => true
  | _ => false

/-- Events that are operating-system socket or thread operations, as
opposed to output on the terminal. -/
def Event.isOsOp : Event → Bool
  | .printf _ _ => false
  | .perror _ _ => false
  | .memset_buf _ _ => false
  | _ => true

/-- A receive or a send that returned `-1` and left an `errno` other than
`EINTR`. -/
def Event.isFatal : Event → Bool
  | .recvfrom _ _ _ ret errno => decide (ret = -1 ∧ errno ≠ EINTR)
  | .sendto _ _ _ _ ret errno => decide (ret = -1 ∧ errno ≠ EINTR)
  | _ => false

/-- The diagnostic that `forward` prints after a failed receive or send
before it returns. -/
def Event.diagnostic : Event → List Event
  | .recvfrom _ _ _ _ errno => [Event.perror "recv_message" errno]
  | .sendto _ _ _ _ _ errno => [Event.perror "send_message" errno]
  | _ => []

/-- What holds of a run of the relay loop, or of `forward`, started in
memory `w`: it returned exactly if its trace holds a fatal receive or send;
only the diagnostic follows a fatal event; the interface records are
unchanged; no socket is closed; `in_packet` is unchanged. -/
def RelayEnds (w : World) (r : Run) : Prop :=
  (r.status = Status.returned ↔ ∃ e ∈ r.trace, e.isFatal = true) ∧
  (∀ pre e post, r.trace = pre ++ e :: post → e.isFatal = true → post = e.diagnostic) ∧
  r.world.inside = w.inside ∧ r.world.outside = w.outside ∧
  (∀ e ∈ r.trace, ∀ fd, e ≠ Event.close fd) ∧
  r.world.in_packet = w.in_packet

/-! ## Sample data for the concrete evaluations -/

/-- An initialised `inside` interface. -/
def sample_inside : Iface := ⟨2, "br0", ⟨0x02, 0, 0, 0, 0, 0x0A⟩, 3⟩

/-- An initialised `outside` interface. -/
def sample_outside : Iface := ⟨5, "eth0", ⟨0x02, 0, 0, 0, 0, 0x0B⟩, 4⟩

/-- A minimal PTP frame: the PTP multicast destination, a source address,
EtherType 0x88F7, no payload. -/
def sample_frame : List Nat :=
  [0x01, 0x1B, 0x19, 0, 0, 0, 0x00, 0x11, 0x22, 0x33, 0x44, 0x55, 0x88, 0xF7]

/-- A second frame, with another destination and two payload bytes. -/
def sample_frame2 : List Nat :=
  [0x01, 0x80, 0xC2, 0, 0, 0x0E, 0x00, 0x11, 0x22, 0x33, 0x44, 0x66, 0x88, 0xF7, 7, 9]

/-- Memory after both interfaces were initialised: zeroed frame buffers. -/
def sample_world : World :=
  ⟨sample_inside, sample_outside, List.replicate ETH_FRAME_LEN 0,
    List.replicate ETH_FRAME_LEN 0, 0⟩

/-- Traffic in which the first send is interrupted: two frames arrive, the
send of the first fails with `EINTR`, the next send succeeds. -/
def sample_net_eintr : Net :=
  ⟨[Sys.ok sample_frame, Sys.ok sample_frame2], [Sys.fail EINTR, Sys.ok ()], []⟩

/-- Traffic of one frame that is sent successfully. -/
def sample_net_one : Net := ⟨[Sys.ok sample_frame], [Sys.ok ()], []⟩

/-- Traffic of the direction inside to outside in which the other direction
interferes: the first sample frame arrives on `inside`; before it is sent,
the direction outside to inside receives the second sample frame, which
its `recv_message` also stores in `out_packet`; then the send succeeds. -/
def sample_net_raced : Net :=
  ⟨[Sys.ok sample_frame], [Sys.ok ()], [[], [EnvOp.recv sample_frame2]]⟩

/-- Traffic of the direction outside to inside in that same execution: the
second sample frame arrives on `outside` and is sent successfully. -/
def sample_net_other : Net := ⟨[Sys.ok sample_frame2], [Sys.ok ()], []⟩

/-- Outcomes of an initialisation in which every step succeeds. -/
def sample_init_inside : InitOs := ⟨Sys.ok 3, 2, Sys.ok sample_inside.mac, Sys.ok ()⟩

/-- Outcomes of a second initialisation in which every step succeeds. -/
def sample_init_outside : InitOs := ⟨Sys.ok 4, 5, Sys.ok sample_outside.mac, Sys.ok ()⟩

/-- Outcomes of an initialisation in which only the name-to-index
resolution fails: `if_nametoindex` yields 0, the socket, the
hardware-address query and the bind succeed. -/
def sample_init_noindex : InitOs := ⟨Sys.ok 3, 0, Sys.ok sample_inside.mac, Sys.ok ()⟩

/-- Outcomes of an initialisation whose hardware-address query fails with
`ENODEV`. -/
def sample_init_noioctl : InitOs := ⟨Sys.ok 3, 0, Sys.fail 19, Sys.ok ()⟩

/-- An execution in which both interfaces initialise and `pthread_create`
fails with `EAGAIN`. -/
def sample_os_nothread : MainOs :=
  ⟨sample_init_inside, sample_init_outside, 11, sample_net_one, sample_net_one⟩

/-- An execution in which the initialisation of `inside` fails. -/
def sample_os_noinit : MainOs :=
  ⟨sample_init_noioctl, sample_init_outside, 0, sample_net_one, sample_net_one⟩

/-- A command line naming two different interfaces. -/
def sample_argv : List String := ["ptpproxy", "br0", "eth0"]

/-- A command line naming the same interface twice. -/
def sample_argv_equal : List String := ["ptpproxy", "eth0", "eth0"]

/-! ## Lemmas on memory copies -/

theorem memcpy_zero_take (mem src : List Nat) :
    (memcpy mem 0 src).take src.length = src := by
  simp [memcpy]

theorem memcpy_length (mem src : List Nat) (off : Nat)
    (h : off + src.length ≤ mem.length) : (memcpy mem off src).length = mem.length := by
  simp [memcpy]
  omega

theorem send_addr_memcpy (dst : Iface) (mem F : List Nat) (h : ETH_ALEN ≤ F.length) :
    send_addr dst (memcpy mem 0 F) = send_addr dst F := by
  have h1 : (memcpy mem 0 F).take ETH_ALEN = F.take ETH_ALEN := by
    simp only [memcpy, List.take_zero, List.nil_append, Nat.zero_add]
    rw [List.take_append_of_le_length h]
  simp only [send_addr, h1]

theorem out_packet_setBuf (w : World) (v : List Nat) :
    (w.setBuf BufId.out_packet v).buf BufId.out_packet = v := rfl

theorem errno_setBuf (w : World) (b : BufId) (v : List Nat) :
    (w.setBuf b v).errno = w.errno := by
  cases b <;> rfl

/-! ## Relaying one frame -/

theorem interfere_nil (w : World) : interfere [] w = w := rfl

theorem forward_relays_frame_undisturbed (src dst : Iface) (F : List Nat)
    (rs : List (Sys (List Nat))) (ss : List (Sys Unit)) (e0 : List EnvOp)
    (env : List (List EnvOp)) (w : World)
    (hmin : ETH_HLEN ≤ F.length) (hmax : F.length ≤ ETH_FRAME_LEN) :
    forward_loop false src dst (Sys.ok F :: rs) (Sys.ok () :: ss) (e0 :: [] :: env) w =
      (forward_loop false src dst rs ss env
          ((interfere e0 w).setBuf BufId.out_packet
            (memcpy (interfere e0 w).out_packet 0 F))).after
        [Event.recvfrom src.sock BufId.out_packet ETH_FRAME_LEN F.length w.errno,
         Event.sendto dst.sock BufId.out_packet F (send_addr dst F) F.length w.errno,
         Event.printf "%s -> %s\n" [Arg.s src.name, Arg.s dst.name]] := by
  have htake : F.take ETH_FRAME_LEN = F := List.take_of_length_le hmax
  have hne : ¬ ((F.length : Int) = -1) := by omega
  have h6 : ETH_ALEN ≤ F.length := le_trans (by decide) hmin
  rw [forward_loop]
  simp only [List.headD_cons, List.tail_cons, interfere_nil, recv_message, send_message,
    htake, hne, if_false, Int.toNat_ofNat, out_packet_setBuf, errno_setBuf,
    memcpy_zero_take, send_addr_memcpy _ _ _ h6, Bool.false_eq_true]
  rfl

theorem sample_world_buf_length (b : BufId) :
    (sample_world.buf b).length = ETH_FRAME_LEN := by
  cases b <;> simp [sample_world, World.buf]

/-! ## `send_message` -/

theorem memcpy_getElem? (mem src : List Nat) (off i : Nat) (h : off ≤ mem.length) :
    (memcpy mem off src)[i]? =
      if i < off then mem[i]? else if i < off + src.length then src[i - off]? else mem[i]? := by
  unfold memcpy
  by_cases h1 : i < off
  · simp only [h1, if_true, List.append_assoc]
    rw [List.getElem?_append_left (by simp; omega)]
    simp [List.getElem?_take, h1]
  · have htl : (mem.take off).length = off := by simp; omega
    simp only [h1, if_false, List.append_assoc]
    rw [List.getElem?_append_right (by omega), htl]
    by_cases h2 : i < off + src.length
    · simp only [h2, if_true]
      rw [List.getElem?_append_left (by omega)]
    · simp only [h2, if_false]
      rw [List.getElem?_append_right (by omega), List.getElem?_drop]
      congr 1
      omega

/-- C6. With masquerade on, for a frame of length `L`, 14 ≤ L ≤ 1514, in a
frame buffer (1514 bytes), `send_message(to, buf, L)` hands to `sendto`, on
the socket of `to`, exactly `L` bytes; bytes 6..11 are the hardware address
of `to`, and every byte at an offset below 6 or from 12 up to `L - 1` is
the byte the buffer held at that offset before the call. -/
theorem send_message_masquerade (dst : Iface) (buf : BufId) (L : Nat) (o : Sys Unit)
    (w : World) (hb : (w.buf buf).length = ETH_FRAME_LEN)
    (hmin : ETH_HLEN ≤ L) (hmax : L ≤ ETH_FRAME_LEN) :
    ∃ bytes addr ret eno,
      (send_message true dst buf L o w).2.2 =
        Event.sendto dst.sock buf bytes addr ret eno ∧
      bytes.length = L ∧
      (bytes.drop 6).take 6 = dst.mac.bytes ∧
      ∀ i, i < L → (i < 6 ∨ 12 ≤ i) → bytes[i]? = (w.buf buf)[i]? := by
  have hset : (w.setBuf buf (memcpy (w.buf buf) ETH_ALEN dst.mac.bytes)).buf buf =
      memcpy (w.buf buf) ETH_ALEN dst.mac.bytes := by
    cases buf <;> rfl
  have hmaclen : dst.mac.bytes.length = 6 := rfl
  have hlen : (memcpy (w.buf buf) ETH_ALEN dst.mac.bytes).length = ETH_FRAME_LEN := by
    rw [memcpy_length _ _ _ (by rw [hb, hmaclen]; decide), hb]
  refine ⟨((memcpy (w.buf buf) ETH_ALEN dst.mac.bytes)).take L, send_addr dst (w.buf buf),
    (match o with | .ok _ => (L : Int) | .fail _ => -1),
    (match o with | .ok _ => w.errno | .fail e => e), ?_, ?_, ?_, ?_⟩
  · cases o <;> simp [send_message, hset, errno_setBuf]
  · rw [List.length_take, hlen]
    omega
  · apply List.ext_getElem?
    intro i
    rw [List.getElem?_take, List.getElem?_drop, List.getElem?_take,
      memcpy_getElem? _ _ _ _ (by rw [hb]; decide)]
    by_cases hi : i < 6
    · have h1 : 6 + i < L := by
        have : ETH_HLEN = 14 := rfl
        omega
      have h2 : ¬ (6 + i < ETH_ALEN) := by
        have : ETH_ALEN = 6 := rfl
        omega
      have h3 : 6 + i < ETH_ALEN + dst.mac.bytes.length := by
        rw [hmaclen]
        have : ETH_ALEN = 6 := rfl
        omega
      have h4 : 6 + i - ETH_ALEN = i := by
        have : ETH_ALEN = 6 := rfl
        omega
      simp only [hi, h1, h2, h3, h4, if_true, if_false]
    · simp only [hi, if_false]
      rw [List.getElem?_eq_none (by rw [hmaclen]; omega)]
  · intro i hi hoff
    rw [List.getElem?_take, memcpy_getElem? _ _ _ _ (by rw [hb]; decide)]
    simp only [hi, if_true]
    rcases hoff with h | h
    · have h1 : i < ETH_ALEN := h
      simp only [h1, if_true]
    · have h1 : ¬ (i < ETH_ALEN) := by
        have : ETH_ALEN = 6 := rfl
        omega
      have h2 : ¬ (i < ETH_ALEN + dst.mac.bytes.length) := by
        rw [hmaclen]
        have : ETH_ALEN = 6 := rfl
        omega
      simp only [h1, h2, if_false]

/-- Witness of C6: the sample frame's length, in zeroed memory. -/
theorem send_message_masquerade_witness :
    ((sample_world.buf BufId.out_packet).length = ETH_FRAME_LEN ∧
      ETH_HLEN ≤ 14 ∧ 14 ≤ ETH_FRAME_LEN) ∧
    ∃ bytes addr ret eno,
      (send_message true sample_outside BufId.out_packet 14 (Sys.ok ()) sample_world).2.2 =
        Event.sendto sample_outside.sock BufId.out_packet bytes addr ret eno ∧
      bytes.length = 14 ∧
      (bytes.drop 6).take 6 = sample_outside.mac.bytes ∧
      ∀ i, i < 14 → (i < 6 ∨ 12 ≤ i) →
        bytes[i]? = (sample_world.buf BufId.out_packet)[i]? :=
  ⟨⟨sample_world_buf_length _, by decide, by decide⟩,
    send_message_masquerade sample_outside BufId.out_packet 14 (Sys.ok ()) sample_world
      (sample_world_buf_length _) (by decide) (by decide)⟩

/-- C9. For a frame in a frame buffer (1514 bytes), with masquerade on or
off and for every length passed (so for every length of at least 14),
`send_message(to, buf, len)` transmits on the socket of `to` to a
link-layer address with interface index `to.index`, address length 6, and
address bytes equal to bytes 0..5 the buffer held before the call. -/
theorem send_message_address (cheat : Bool) (dst : Iface) (buf : BufId) (len : Nat)
    (o : Sys Unit) (w : World) (hb : (w.buf buf).length = ETH_FRAME_LEN) :
    ∃ bytes addr ret eno,
      (send_message cheat dst buf len o w).2.2 =
        Event.sendto dst.sock buf bytes addr ret eno ∧
      addr.sll_family = PF_PACKET ∧
      addr.sll_ifindex = dst.index ∧
      addr.sll_halen = 6 ∧
      addr.lladdr = (w.buf buf).take 6 := by
  have hsrc : ((w.buf buf).take ETH_ALEN).length = ETH_ALEN := by
    rw [List.length_take, hb]
    decide
  refine ⟨((if cheat then
      w.setBuf buf (memcpy (w.buf buf) ETH_ALEN dst.mac.bytes) else w).buf buf).take len,
    send_addr dst (w.buf buf), (match o with | .ok _ => (len : Int) | .fail _ => -1),
    (match o with
      | .ok _ => (if cheat then
          w.setBuf buf (memcpy (w.buf buf) ETH_ALEN dst.mac.bytes) else w).errno
      | .fail e => e), ?_, rfl, rfl, rfl, ?_⟩
  · cases o <;> simp [send_message]
  · have h := memcpy_zero_take SockaddrLL.zero.sll_addr ((w.buf buf).take ETH_ALEN)
    rw [hsrc] at h
    exact h

/-- Witness of C9: masquerade off, zeroed memory. -/
theorem send_message_address_witness :
    (sample_world.buf BufId.out_packet).length = ETH_FRAME_LEN ∧
    ∃ bytes addr ret eno,
      (send_message false sample_outside BufId.out_packet 14 (Sys.ok ()) sample_world).2.2 =
        Event.sendto sample_outside.sock BufId.out_packet bytes addr ret eno ∧
      addr.sll_family = PF_PACKET ∧
      addr.sll_ifindex = sample_outside.index ∧
      addr.sll_halen = 6 ∧
      addr.lladdr = (sample_world.buf BufId.out_packet).take 6 :=
  ⟨sample_world_buf_length _,
    send_message_address false sample_outside BufId.out_packet 14 (Sys.ok ()) sample_world
      (sample_world_buf_length _)⟩

/-! ## When `forward` returns -/

theorem fatal_split (evs t pre post : List Event) (e : Event)
    (hevs : ∀ x ∈ evs, x.isFatal = false) (he : e.isFatal = true)
    (h : evs ++ t = pre ++ e :: post) : ∃ pre1, t = pre1 ++ e :: post := by
  induction evs generalizing pre with
  | nil => exact ⟨pre, h⟩
  | cons x xs ih =>
    cases pre with
    | nil =>
      simp only [List.cons_append, List.nil_append, List.cons.injEq] at h
      have hx := hevs x (List.mem_cons_self _ _)
      rw [h.1, he] at hx
      exact absurd hx (by decide)
    | cons p ps =>
      simp only [List.cons_append, List.cons.injEq] at h
      exact ih ps (fun y hy => hevs y (List.mem_cons_of_mem _ hy)) h.2

theorem relayEnds_after (w0 w : World) (r : Run) (evs : List Event)
    (hevs : ∀ x ∈ evs, x.isFatal = false) (hcl : ∀ x ∈ evs, ∀ fd, x ≠ Event.close fd)
    (hi : w.inside = w0.inside) (ho : w.outside = w0.outside)
    (hp : w.in_packet = w0.in_packet)
    (h : RelayEnds w r) : RelayEnds w0 (r.after evs) := by
  obtain ⟨h1, h2, h3, h4, h5, h6⟩ := h
  refine ⟨?_, ?_, h3.trans hi, h4.trans ho, ?_, h6.trans hp⟩
  · show r.status = Status.returned ↔ ∃ e ∈ evs ++ r.trace, e.isFatal = true
    rw [h1]
    constructor
    · rintro ⟨e, he, hf⟩
      exact ⟨e, List.mem_append_right _ he, hf⟩
    · rintro ⟨e, he, hf⟩
      rcases List.mem_append.mp he with h | h
      · rw [hevs e h] at hf
        exact absurd hf (by decide)
      · exact ⟨e, h, hf⟩
  · intro pre e post heq hf
    obtain ⟨pre1, hp⟩ := fatal_split evs r.trace pre post e hevs hf heq
    exact h2 pre1 e post hp hf
  · intro e he fd
    rcases List.mem_append.mp he with h | h
    · exact hcl e h fd
    · exact h5 e h fd

theorem relayEnds_stop (w0 w : World) (evs : List Event) (e : Event)
    (hevs : ∀ x ∈ evs, x.isFatal = false) (hcl : ∀ x ∈ evs, ∀ fd, x ≠ Event.close fd)
    (he : e.isFatal = true)
    (hdf : ∀ x ∈ e.diagnostic, x.isFatal = false ∧ ∀ fd, x ≠ Event.close fd)
    (hec : ∀ fd, e ≠ Event.close fd)
    (hi : w.inside = w0.inside) (ho : w.outside = w0.outside)
    (hp : w.in_packet = w0.in_packet) :
    RelayEnds w0 ⟨w, evs ++ e :: e.diagnostic, Status.returned⟩ := by
  refine ⟨?_, ?_, hi, ho, ?_, hp⟩
  · constructor
    · intro _
      exact ⟨e, by simp, he⟩
    · intro _
      rfl
  · intro pre x post heq hf
    obtain ⟨pre1, hp⟩ := fatal_split evs (e :: e.diagnostic) pre post x hevs hf heq
    cases pre1 with
    | nil =>
      simp only [List.nil_append, List.cons.injEq] at hp
      rw [← hp.1, hp.2]
    | cons p ps =>
      simp only [List.cons_append, List.cons.injEq] at hp
      have hx : x ∈ e.diagnostic := by
        rw [hp.2]
        simp
      rw [(hdf x hx).1] at hf
      exact absurd hf (by decide)
  · intro x hx fd
    rcases List.mem_append.mp hx with h | h
    · exact hcl x h fd
    · rcases List.mem_cons.mp h with h | h
      · rw [h]
        exact hec fd
      · exact (hdf x h).2 fd

theorem relayEnds_blocked (w0 w : World) (evs : List Event)
    (hevs : ∀ x ∈ evs, x.isFatal = false) (hcl : ∀ x ∈ evs, ∀ fd, x ≠ Event.close fd)
    (hi : w.inside = w0.inside) (ho : w.outside = w0.outside)
    (hp : w.in_packet = w0.in_packet) :
    RelayEnds w0 ⟨w, evs, Status.blocked⟩ := by
  refine ⟨?_, ?_, hi, ho, hcl, hp⟩
  · constructor
    · intro h
      exact absurd h (by simp)
    · rintro ⟨e, he, hf⟩
      rw [hevs e he] at hf
      exact absurd hf (by decide)
  · intro pre e post heq hf
    have he : e ∈ evs := by
      show e ∈ (Run.mk w evs Status.blocked).trace
      rw [heq]
      simp
    rw [hevs e he] at hf
    exact absurd hf (by decide)

theorem isFatal_recvfrom_nat (sock : Int) (b : BufId) (cap n : Nat) (e : Int) :
    (Event.recvfrom sock b cap (n : Int) e).isFatal = false := by
  simp only [Event.isFatal, decide_eq_false_iff_not, not_and]
  intro h
  omega

theorem isFatal_sendto_nat (sock : Int) (b : BufId) (bytes : List Nat) (addr : SockaddrLL)
    (n : Nat) (e : Int) : (Event.sendto sock b bytes addr (n : Int) e).isFatal = false := by
  simp only [Event.isFatal, decide_eq_false_iff_not, not_and]
  intro h
  omega

theorem isFatal_sendto_eintr (sock : Int) (b : BufId) (bytes : List Nat) (addr : SockaddrLL)
    (ret : Int) : (Event.sendto sock b bytes addr ret EINTR).isFatal = false := by
  simp [Event.isFatal]

theorem isFatal_recvfrom_eintr (sock : Int) (b : BufId) (cap : Nat) (ret : Int) :
    (Event.recvfrom sock b cap ret EINTR).isFatal = false := by
  simp [Event.isFatal]

theorem nonfatal_one {a : Event} (ha : a.isFatal = false) :
    ∀ x ∈ [a], x.isFatal = false := by
  intro x hx
  rw [List.mem_singleton] at hx
  rw [hx]
  exact ha

theorem nonfatal_cons {a : Event} {l : List Event} (ha : a.isFatal = false)
    (hl : ∀ x ∈ l, x.isFatal = false) : ∀ x ∈ a :: l, x.isFatal = false := by
  intro x hx
  rcases List.mem_cons.mp hx with h | h
  · rw [h]
    exact ha
  · exact hl x h

theorem forward_loop_relayEnds (cheat : Bool) (src dst : Iface)
    (recvs : List (Sys (List Nat))) :
    ∀ (sends : List (Sys Unit)) (env : List (List EnvOp)) (w : World),
      RelayEnds w (forward_loop cheat src dst recvs sends env w) := by
  induction recvs with
  | nil =>
    intro sends env w
    rw [forward_loop]
    exact relayEnds_blocked w w [] (by simp) (by simp) rfl rfl rfl
  | cons r rs ih =>
    intro sends env w
    rw [forward_loop]
    cases r with
    | fail e =>
      simp only [recv_message, if_true]
      by_cases he : e = EINTR
      · simp only [he, if_true]
        exact relayEnds_after w _ _ _ (nonfatal_one (isFatal_recvfrom_eintr _ _ _ _))
          (by simp) rfl rfl rfl (ih _ _ _)
      · simp only [he, if_false]
        exact relayEnds_stop w _ [] (Event.recvfrom src.sock BufId.out_packet ETH_FRAME_LEN (-1) e)
          (by simp) (by simp) (by simp [Event.isFatal, he])
          (by simp [Event.diagnostic, Event.isFatal]) (by simp) rfl rfl rfl
    | ok frame =>
      have hne : ¬ (((frame.take ETH_FRAME_LEN).length : Int) = -1) := by omega
      simp only [recv_message, hne, if_false]
      cases sends with
      | nil =>
        exact relayEnds_blocked w _ _ (nonfatal_one (isFatal_recvfrom_nat _ _ _ _ _))
          (by simp) rfl rfl rfl
      | cons s ss =>
        cases s with
        | fail e =>
          simp only [send_message, if_true]
          by_cases he : e = EINTR
          · simp only [he, if_true]
            refine relayEnds_after w _ _ _
              (nonfatal_cons (isFatal_recvfrom_nat _ _ _ _ _)
                (nonfatal_one (isFatal_sendto_eintr _ _ _ _ _)))
              (by simp) ?_ ?_ ?_ (ih _ _ _)
            · cases cheat <;> rfl
            · cases cheat <;> rfl
            · cases cheat <;> rfl
          · simp only [he, if_false]
            refine relayEnds_stop w _ [_] (Event.sendto _ _ _ _ (-1) e)
              (nonfatal_one (isFatal_recvfrom_nat _ _ _ _ _)) (by simp)
              (by simp [Event.isFatal, he])
              (by simp [Event.diagnostic, Event.isFatal]) (by simp) ?_ ?_ ?_
            · cases cheat <;> rfl
            · cases cheat <;> rfl
            · cases cheat <;> rfl
        | ok u =>
          have hne2 : ¬ ((((frame.take ETH_FRAME_LEN).length : Int).toNat : Int) = -1) := by
            omega
          simp only [send_message, hne2, if_false]
          refine relayEnds_after w _ _ _
            (nonfatal_cons (isFatal_recvfrom_nat _ _ _ _ _)
              (nonfatal_cons (isFatal_sendto_nat _ _ _ _ _ _) (nonfatal_one rfl)))
            (by simp [trace_line]) ?_ ?_ ?_ (ih _ _ _)
          · cases cheat <;> rfl
          · cases cheat <;> rfl
          · cases cheat <;> rfl

theorem forward_relayEnds (cheat : Bool) (src dst : Iface) (buf : BufId)
    (recvs : List (Sys (List Nat))) (sends : List (Sys Unit)) (env : List (List EnvOp))
    (w : World) :
    RelayEnds w (forward cheat src dst buf recvs sends env w) :=
  relayEnds_after w _ _ [Event.memset_buf BufId.out_packet ETH_FRAME_LEN]
    (by simp [Event.isFatal]) (by simp) rfl rfl rfl
    (forward_loop_relayEnds cheat src dst recvs sends env
      (w.setBuf BufId.out_packet (List.replicate ETH_FRAME_LEN 0)))

theorem forward_buf_irrelevant (cheat : Bool) (src dst : Iface) (buf : BufId)
    (recvs : List (Sys (List Nat))) (sends : List (Sys Unit)) (env : List (List EnvOp))
    (w : World) :
    forward cheat src dst buf recvs sends env w =
      forward cheat src dst BufId.out_packet recvs sends env w := rfl

theorem forward_in_packet_unchanged (cheat : Bool) (src dst : Iface) (buf : BufId)
    (recvs : List (Sys (List Nat))) (sends : List (Sys Unit)) (env : List (List EnvOp))
    (w : World) :
    (forward cheat src dst buf recvs sends env w).world.in_packet = w.in_packet :=
  (forward_relayEnds cheat src dst buf recvs sends env w).2.2.2.2.2

theorem forward_loop_eintr_send (cheat : Bool) (src dst : Iface) (F : List Nat)
    (rs : List (Sys (List Nat))) (ss : List (Sys Unit)) (env : List (List EnvOp))
    (w : World) :
    ∃ w1 ev1 ev2,
      forward_loop cheat src dst (Sys.ok F :: rs) (Sys.fail EINTR :: ss) env w =
        (forward_loop cheat src dst rs ss env.tail.tail w1).after [ev1, ev2] := by
  have hne : ¬ (((F.take ETH_FRAME_LEN).length : Int) = -1) := by omega
  rw [forward_loop]
  simp only [recv_message, send_message, hne, if_false, if_true]
  exact ⟨_, _, _, rfl⟩

/-- C1, evaluated. With masquerade off, the direction inside to outside
receives the first sample frame (14 bytes); before its send, the direction
outside to inside receives the second sample frame, which `forward` stores
in the same `out_packet`; the send on `outside` succeeds.  The bytes handed
to that send are the first 14 bytes of the second frame, addressed to the
second frame's destination, not the frame received on `inside`; the trace
line is printed all the same.  The last part shows the write of the other
direction: started with `in_packet`, its receive of the 16 bytes goes into
`out_packet`. -/
theorem forward_sends_other_direction_frame :
    (forward false sample_inside sample_outside BufId.out_packet
        sample_net_raced.recvs sample_net_raced.sends sample_net_raced.env
        sample_world).trace =
      [Event.memset_buf BufId.out_packet 1514,
       Event.recvfrom 3 BufId.out_packet 1514 14 0,
       Event.sendto 4 BufId.out_packet
         [0x01, 0x80, 0xC2, 0, 0, 0x0E, 0x00, 0x11, 0x22, 0x33, 0x44, 0x66, 0x88, 0xF7]
         ⟨PF_PACKET, 0, 5, 6, [0x01, 0x80, 0xC2, 0, 0, 0x0E, 0, 0]⟩ 14 0,
       Event.printf "%s -> %s\n" [Arg.s "br0", Arg.s "eth0"]] ∧
    [0x01, 0x80, 0xC2, 0, 0, 0x0E, 0x00, 0x11, 0x22, 0x33, 0x44, 0x66, 0x88, 0xF7] ≠
      sample_frame ∧
    (proxy_master_to_client false sample_net_other sample_world).trace.take 2 =
      [Event.memset_buf BufId.out_packet 1514,
       Event.recvfrom 4 BufId.out_packet 1514 16 0] := by
  decide

/-- C2, evaluated. Two frames arrive and the other direction writes nothing
meanwhile; the send of the first is interrupted (`EINTR`).  The operation
after the interrupted send is the next receive, not a send of the first
frame: the first frame is never sent successfully, and the only successful
send carries the second frame. -/
theorem forward_eintr_send_drops_frame :
    (forward false sample_inside sample_outside BufId.out_packet
        sample_net_eintr.recvs sample_net_eintr.sends sample_net_eintr.env
        sample_world).trace =
      [Event.memset_buf BufId.out_packet 1514,
       Event.recvfrom 3 BufId.out_packet 1514 14 0,
       Event.sendto 4 BufId.out_packet sample_frame
         (send_addr sample_outside sample_frame) (-1) EINTR,
       Event.recvfrom 3 BufId.out_packet 1514 16 EINTR,
       Event.sendto 4 BufId.out_packet sample_frame2
         (send_addr sample_outside sample_frame2) 16 EINTR,
       Event.printf "%s -> %s\n" [Arg.s "br0", Arg.s "eth0"]] := by
  decide

/-- C7, evaluated. The direction outside to inside is started with
`in_packet`, yet it clears, receives into and sends from `out_packet`: all
its buffer events name `out_packet`, the received frame ends up in
`out_packet`, and `in_packet` is left as it was. -/
theorem forward_ignores_given_buffer :
    (proxy_master_to_client false sample_net_one sample_world).trace =
      [Event.memset_buf BufId.out_packet 1514,
       Event.recvfrom 4 BufId.out_packet 1514 14 0,
       Event.sendto 3 BufId.out_packet sample_frame
         (send_addr sample_inside sample_frame) 14 0,
       Event.printf "%s -> %s\n" [Arg.s "eth0", Arg.s "br0"]] ∧
    (proxy_master_to_client false sample_net_one sample_world).world.out_packet.take 14 =
      sample_frame ∧
    (proxy_master_to_client false sample_net_one sample_world).world.in_packet =
      sample_world.in_packet := by
  refine ⟨by decide, by decide, rfl⟩

/-! ## `init_iface` -/

theorem init_iface_ret_eq_zero_iff (os : InitOs) (name : String) (iface : Iface)
    (errno : Int) :
    (init_iface os name iface errno).ret = 0 ↔
      (∃ fd, os.socket = Sys.ok fd) ∧ (∃ hw, os.ioctl = Sys.ok hw) ∧
        (∃ u, os.bind = Sys.ok u) := by
  rcases os with ⟨so, ix, io, bi⟩
  cases so <;> cases io <;> cases bi <;> simp [init_iface]

theorem init_iface_trace_setup (os : InitOs) (name : String) (iface : Iface) (errno : Int) :
    ∀ e ∈ (init_iface os name iface errno).trace,
      e.isRelay = false ∧ ∀ ret, e ≠ Event.pthread_create ret := by
  rcases os with ⟨so, ix, io, bi⟩
  cases so <;> cases io <;> cases bi <;> simp [init_iface, Event.isRelay, report_line]

/-- C4, evaluated. The name-to-index resolution fails (`if_nametoindex`
yields 0) while the socket, the hardware-address query and the bind
succeed: `init_iface` goes on to the query and the bind, binds to
interface index 0, and returns 0. -/
theorem init_iface_ignores_index_failure :
    init_iface sample_init_noindex "br0" { Iface.zero with sock := -1 } 0 =
      ⟨0, ⟨0, "br0", sample_inside.mac, 3⟩, 0,
        [Event.socket PF_PACKET ETH_P_1588 3,
         Event.printf "Initialize %s\n" [Arg.s "br0"],
         Event.if_nametoindex "br0" 0,
         Event.ioctl_hwaddr 3 "br0" 0,
         report_line ⟨0, "br0", sample_inside.mac, 3⟩,
         Event.bind 3 (bind_addr 0) 0]⟩ := by
  decide

/-! ## `main` -/

/-- C3. For every command line with at least two interface arguments that
are equal strings, `main` returns 1, starts no thread, and its whole trace
is the one error message: no socket, index, hardware-address, bind or
thread operation is made. -/
theorem main_equal_names (cheat : Bool) (os : MainOs) (argv : List String)
    (hargc : 3 ≤ argv.length) (heq : argv.getD 1 "" = argv.getD 2 "") :
    (main cheat os argv).exit = some 1 ∧
    (main cheat os argv).thread = [] ∧
    (main cheat os argv).trace =
      [Event.printf "Error! inside_iface(%s) mustn't be equal to outside_iface(%s)\n"
        [Arg.s (argv.getD 1 ""), Arg.s (argv.getD 2 "")]] ∧
    ∀ e ∈ (main cheat os argv).trace, e.isOsOp = false := by
  have h3 : ¬ argv.length < 3 := by omega
  have hm : main cheat os argv =
      ⟨some 1, [Event.printf
        "Error! inside_iface(%s) mustn't be equal to outside_iface(%s)\n"
        [Arg.s (argv.getD 1 ""), Arg.s (argv.getD 2 "")]], []⟩ := by
    unfold main
    rw [if_neg h3, if_pos heq]
  rw [hm]
  refine ⟨rfl, rfl, rfl, ?_⟩
  intro e he
  rw [List.mem_singleton] at he
  rw [he]
  rfl

/-- Witness of C3: the same interface named twice. -/
theorem main_equal_names_witness :
    (3 ≤ sample_argv_equal.length ∧
      sample_argv_equal.getD 1 "" = sample_argv_equal.getD 2 "") ∧
    (main false sample_os_nothread sample_argv_equal).exit = some 1 ∧
    (main false sample_os_nothread sample_argv_equal).thread = [] ∧
    (main false sample_os_nothread sample_argv_equal).trace =
      [Event.printf "Error! inside_iface(%s) mustn't be equal to outside_iface(%s)\n"
        [Arg.s (sample_argv_equal.getD 1 ""), Arg.s (sample_argv_equal.getD 2 "")]] ∧
    ∀ e ∈ (main false sample_os_nothread sample_argv_equal).trace, e.isOsOp = false :=
  ⟨⟨by decide, by decide⟩,
    main_equal_names false sample_os_nothread sample_argv_equal (by decide) (by decide)⟩

/-- C8. With two different interface names given, if `init_iface` returns
non-zero for `inside` or for `outside`, `main` returns 1; no event of its
trace is a thread creation or an action of `forward`, and the spawned
thread does nothing; and if the call for `inside` fails, the trace of
`main` is the trace of that one call, so nothing is done for `outside`. -/
theorem main_init_failure (cheat : Bool) (os : MainOs) (argv : List String)
    (hargc : 3 ≤ argv.length) (hne : argv.getD 1 "" ≠ argv.getD 2 "")
    (hfail : (init_inside os argv).ret ≠ 0 ∨ (init_outside os argv).ret ≠ 0) :
    (main cheat os argv).exit = some 1 ∧
    (main cheat os argv).thread = [] ∧
    (∀ e ∈ (main cheat os argv).trace,
      e.isRelay = false ∧ ∀ ret, e ≠ Event.pthread_create ret) ∧
    ((init_inside os argv).ret ≠ 0 →
      (main cheat os argv).trace = (init_inside os argv).trace) := by
  have h3 : ¬ argv.length < 3 := by omega
  by_cases h1 : (init_inside os argv).ret ≠ 0
  · have hm : main cheat os argv = ⟨some 1, (init_inside os argv).trace, []⟩ := by
      unfold main
      rw [if_neg h3, if_neg hne]
      dsimp only
      rw [if_pos h1]
    rw [hm]
    exact ⟨rfl, rfl, init_iface_trace_setup _ _ _ _, fun _ => rfl⟩
  · have h2 : (init_outside os argv).ret ≠ 0 := hfail.resolve_left h1
    have hm : main cheat os argv =
        ⟨some 1, (init_inside os argv).trace ++ (init_outside os argv).trace, []⟩ := by
      unfold main
      rw [if_neg h3, if_neg hne]
      dsimp only
      rw [if_neg h1, if_pos h2]
    rw [hm]
    refine ⟨rfl, rfl, ?_, fun h => absurd h h1⟩
    intro e he
    rcases List.mem_append.mp he with h | h
    · exact init_iface_trace_setup _ _ _ _ e h
    · exact init_iface_trace_setup _ _ _ _ e h

/-- Witness of C8: the hardware-address query for `inside` fails. -/
theorem main_init_failure_witness :
    (3 ≤ sample_argv.length ∧ sample_argv.getD 1 "" ≠ sample_argv.getD 2 "" ∧
      ((init_inside sample_os_noinit sample_argv).ret ≠ 0 ∨
        (init_outside sample_os_noinit sample_argv).ret ≠ 0)) ∧
    (main false sample_os_noinit sample_argv).exit = some 1 ∧
    (main false sample_os_noinit sample_argv).thread = [] ∧
    (∀ e ∈ (main false sample_os_noinit sample_argv).trace,
      e.isRelay = false ∧ ∀ ret, e ≠ Event.pthread_create ret) ∧
    ((init_inside sample_os_noinit sample_argv).ret ≠ 0 →
      (main false sample_os_noinit sample_argv).trace =
        (init_inside sample_os_noinit sample_argv).trace) :=
  ⟨⟨by decide, by decide, Or.inl (by decide)⟩,
    main_init_failure false sample_os_noinit sample_argv (by decide) (by decide)
      (Or.inl (by decide))⟩

/-- C5, evaluated. Both interfaces initialise and `pthread_create` fails:
`main` prints the failure, closes both sockets and returns 0, although no
relay direction was started (no event of `forward` in either thread). -/
theorem main_exit_zero_without_relay :
    (main false sample_os_nothread sample_argv).exit = some 0 ∧
    (main false sample_os_nothread sample_argv).thread = [] ∧
    (∀ e ∈ (main false sample_os_nothread sample_argv).trace, e.isRelay = false) ∧
    (main false sample_os_nothread sample_argv).trace.drop 12 =
      [Event.pthread_create 11, Event.printf "pthread_create failed\n" [],
       Event.close 3, Event.close 4] := by
  decide

end PtpProxy
